import Mathlib

/-!
Verification development for the Binance trading-bot repository.

The file shallowly embeds the code the claims are about:

* `Order` and its `update` / `fill` / `cancel` transitions, and the
  `Backtester` replay loop — from `tests/backtesting/test_strategies.py`;
* `validate_order_params` — from `src/validation.py` (exact `Decimal`
  arithmetic modelled with rationals, `Decimal.__mod__` as truncated
  remainder, `Decimal.quantize(step, ROUND_DOWN)` as truncation at the
  step's decimal exponent);
* `place_simulated_oco_order` — from `src/strategies/oco.py`, with the
  gateway call outcomes passed in explicitly and the logged / printed
  error surfaces modelled as an event list.

Numbers are rationals (`ℚ`): the Python code works on `Decimal` values
(exact decimal arithmetic), which embed exactly into `ℚ`.  Timestamps are
naturals.
-/

/-! ## The Order state machine (tests/backtesting/test_strategies.py) -/

/-- `side` field: the source stores `'BUY'` / `'SELL'` strings. -/
inductive Side where
  | buy
  | sell
deriving DecidableEq, Repr

/-- `order_type` field: the kinds the backtester constructs or branches on
(`'MARKET'`, `'LIMIT'`, `'STOP_LIMIT'`). -/
inductive OrderType where
  | market
  | limit
  | stopLimit
deriving DecidableEq, Repr

/-- `status` field: `'PENDING' | 'ACTIVE' | 'FILLED' | 'CANCELLED'`. -/
inductive OStatus where
  | pending
  | active
  | filled
  | cancelled
deriving DecidableEq, Repr

/-- One order, mirroring `Order.__init__`.  The OCO peer is not stored in
the order itself: the source links two order objects mutually by reference
(`link_oco_peer`), which we model by passing the peer explicitly to the
transition functions (`Order.update`, `Order.fill`). -/
structure Order where
  order_type : OrderType
  side : Side
  quantity : ℚ
  price : Option ℚ
  trigger_price : Option ℚ
  status : OStatus
  created_at : Option ℕ
  filled_at : Option ℕ
  filled_price : Option ℚ
deriving DecidableEq, Repr

/-- `Order.is_buy` property. -/
def Order.is_buy (o : Order) : Bool :=
  match o.side with
  | Side.buy => true
  | Side.sell => false

/-- `Order.is_sell` property. -/
def Order.is_sell (o : Order) : Bool :=
  match o.side with
  | Side.buy => false
  | Side.sell => true

/-- `Order.is_done` property: `status in ['FILLED', 'CANCELLED']`. -/
def Order.is_done (o : Order) : Bool :=
  match o.status with
  | OStatus.filled => true
  | OStatus.cancelled => true
  | _ => false

/-- `Order.cancel`: no-op when terminal, else set `status = 'CANCELLED'`.
The source's `timestamp` argument is only printed, so it is dropped here. -/
def Order.cancel (o : Order) : Order :=
  if o.is_done then o else { o with status := OStatus.cancelled }

/-- `Order.fill(timestamp, fill_price)`: guarded only by
`status == 'FILLED'` (not by `is_done`); sets the fill fields and
cascade-cancels the OCO peer when one is linked.  The peer is passed
explicitly (`none` models `oco_peer is None`); the result is the new
`(self, peer)` pair. -/
def Order.fill (o : Order) (peer : Option Order) (timestamp : ℕ) (fill_price : ℚ) :
    Order × Option Order :=
  if o.status = OStatus.filled then (o, peer)
  else
    ({ o with
        status := OStatus.filled
        filled_at := some timestamp
        filled_price := some fill_price },
      peer.map Order.cancel)

/-- `Order.update(timestamp, current_price)`, with the OCO peer passed
explicitly.  `Order._validate` guarantees `price` is present for
`LIMIT`/`STOP_LIMIT` orders and `trigger_price` for `STOP_LIMIT` orders,
which are the only kinds whose comparisons are reachable; the `getD 0`
defaults only cover the cases `_validate` rules out (where the Python
would raise `TypeError`). -/
def Order.update (o : Order) (peer : Option Order) (timestamp : ℕ) (current_price : ℚ) :
    Order × Option Order :=
  if o.is_done then (o, peer)
  else
    let o1 := if o.created_at = none then { o with created_at := some timestamp } else o
    let o2 :=
      if o1.order_type = OrderType.stopLimit ∧ o1.status = OStatus.pending ∧
          ((o1.is_buy = true ∧ o1.trigger_price.getD 0 ≤ current_price) ∨
            (o1.is_sell = true ∧ current_price ≤ o1.trigger_price.getD 0)) then
        { o1 with status := OStatus.active }
      else o1
    if (o2.status = OStatus.active ∨ o2.order_type = OrderType.limit) ∧
        ((o2.is_buy = true ∧ current_price ≤ o2.price.getD 0) ∨
          (o2.is_sell = true ∧ o2.price.getD 0 ≤ current_price)) then
      Order.fill o2 peer timestamp current_price
    else (o2, peer)

/-! ## The Backtester replay loop (tests/backtesting/test_strategies.py)

`Backtester._orders` is created as `[tp, sl]` by `place_oco_order` (the
only insertion the source performs) and is only ever shrunk by the
end-of-tick filter `[o for o in self._orders if not o.is_done]`, which
preserves relative order.  The working set is therefore always a
subsequence of `[tp, sl]`, represented here by the two flags `tpOpen`,
`slOpen`; iteration in list (insertion) order means: the take-profit leg
first, then the stop-loss leg. -/

/-- One `trade_log` entry appended by `Backtester._execute_fill`. -/
structure Trade where
  timestamp : Option ℕ
  side : Side
  price : Option ℚ
deriving DecidableEq, Repr

/-- The backtester state: ledger (`cash`, `position_size`, `trade_log`)
plus the seeded OCO pair and the open-set membership flags. -/
structure Backtester where
  cash : ℚ
  position_size : ℚ
  trade_log : List Trade
  tp : Order
  sl : Order
  tpOpen : Bool
  slOpen : Bool
deriving DecidableEq, Repr

/-- `Backtester._execute_fill(order)`: Buy decreases cash by
`filled_price * quantity` and increases the position; the `elif is_sell`
branch (the only other case, `side` being two-valued) does the reverse;
then a `trade_log` entry is appended.  `filled_price` is always set on
the orders this is called with (they were just filled); `getD 0` covers
the case the Python would raise `TypeError` on. -/
def Backtester.execute_fill (b : Backtester) (o : Order) : Backtester :=
  let b1 :=
    if o.is_buy then
      { b with
          cash := b.cash - o.filled_price.getD 0 * o.quantity
          position_size := b.position_size + o.quantity }
    else
      { b with
          cash := b.cash + o.filled_price.getD 0 * o.quantity
          position_size := b.position_size - o.quantity }
  { b1 with trade_log := b1.trade_log ++ [⟨o.filled_at, o.side, o.filled_price⟩] }

/-- One iteration of the inner loop of `Backtester.run` for the
take-profit leg: `order.update(timestamp, price)` (the stop-loss leg is
its OCO peer), then `if order.status == 'FILLED': self._execute_fill(order)`. -/
def Backtester.observe_tp (b : Backtester) (timestamp : ℕ) (price : ℚ) : Backtester :=
  let r := b.tp.update (some b.sl) timestamp price
  let b1 := { b with tp := r.1, sl := r.2.getD b.sl }
  if r.1.status = OStatus.filled then b1.execute_fill r.1 else b1

/-- The same inner-loop iteration for the stop-loss leg. -/
def Backtester.observe_sl (b : Backtester) (timestamp : ℕ) (price : ℚ) : Backtester :=
  let r := b.sl.update (some b.tp) timestamp price
  let b1 := { b with sl := r.1, tp := r.2.getD b.tp }
  if r.1.status = OStatus.filled then b1.execute_fill r.1 else b1

/-- The state after the inner loop has processed the take-profit leg (a
no-op when that leg is no longer in `_orders`). -/
def Backtester.midTp (b : Backtester) (timestamp : ℕ) (price : ℚ) : Backtester :=
  if b.tpOpen then b.observe_tp timestamp price else b

/-- The state after the inner loop has also processed the stop-loss leg. -/
def Backtester.midSl (b : Backtester) (timestamp : ℕ) (price : ℚ) : Backtester :=
  if b.slOpen then b.observe_sl timestamp price else b

/-- One full tick of `Backtester.run`: observe every order of the open
set in insertion order (take-profit first, then stop-loss), then drop the
terminal orders from the open set
(`self._orders = [o for o in self._orders if not o.is_done]`). -/
def Backtester.tick (b : Backtester) (timestamp : ℕ) (price : ℚ) : Backtester :=
  let b2 := (b.midTp timestamp price).midSl timestamp price
  { b2 with
      tpOpen := b2.tpOpen && !b2.tp.is_done
      slOpen := b2.slOpen && !b2.sl.is_done }

/-- `Backtester.place_oco_order(quantity, take_profit_price, stop_loss_price)`:
a `LIMIT SELL` take-profit leg and a `STOP_LIMIT SELL` stop-loss leg whose
limit and trigger prices coincide, mutually linked as OCO peers. -/
def Backtester.place_oco_pair (quantity take_profit_price stop_loss_price : ℚ) :
    Order × Order :=
  (⟨OrderType.limit, Side.sell, quantity, some take_profit_price, none,
      OStatus.pending, none, none, none⟩,
    ⟨OrderType.stopLimit, Side.sell, quantity, some stop_loss_price,
      some stop_loss_price, OStatus.pending, none, none, none⟩)

/-- The state `Backtester.run` has built just before its tick loop starts:
a simulated initial buy of 1.0 unit at the first price, then the OCO pair
seeded at `initial_buy_price * 1.05` / `initial_buy_price * 0.98`. -/
def Backtester.init (initial_cash initial_buy_price : ℚ) : Backtester :=
  { cash := initial_cash - initial_buy_price * 1
    position_size := 1
    trade_log := []
    tp := (Backtester.place_oco_pair 1 (initial_buy_price * (105 / 100))
        (initial_buy_price * (98 / 100))).1
    sl := (Backtester.place_oco_pair 1 (initial_buy_price * (105 / 100))
        (initial_buy_price * (98 / 100))).2
    tpOpen := true
    slOpen := true }

/-- The tick loop of `Backtester.run` over a `(timestamp, price)` feed. -/
def Backtester.runTicks (b : Backtester) : List (ℕ × ℚ) → Backtester
  | [] => b
  | t :: rest => (b.tick t.1 t.2).runTicks rest

/-- Every state the replay loop passes through, including the
intermediate states inside each tick (after the take-profit leg's
observation, after the stop-loss leg's observation) — the "history" of
the run. -/
def Backtester.runTrace (b : Backtester) : List (ℕ × ℚ) → List Backtester
  | [] => [b]
  | t :: rest =>
      b :: b.midTp t.1 t.2 :: (b.midTp t.1 t.2).midSl t.1 t.2 ::
        (b.tick t.1 t.2).runTrace rest

/-! ## Basic lemmas about the order state machine -/

theorem Order.is_done_true_iff (o : Order) :
    o.is_done = true ↔ (o.status = OStatus.filled ∨ o.status = OStatus.cancelled) := by
  cases h : o.status <;> simp [Order.is_done, h]

theorem Order.is_done_false_iff (o : Order) :
    o.is_done = false ↔ (o.status = OStatus.pending ∨ o.status = OStatus.active) := by
  cases h : o.status <;> simp [Order.is_done, h]

theorem Order.cancel_of_done (o : Order) (h : o.is_done = true) : o.cancel = o := by
  simp [Order.cancel, h]

theorem Order.cancel_status_of_not_filled (o : Order) (h : o.status ≠ OStatus.filled) :
    (Order.cancel o).status = OStatus.cancelled := by
  cases hs : o.status <;> simp_all [Order.cancel, Order.is_done]

theorem Order.cancel_eq_of_not_done (o : Order) (h : o.is_done = false) :
    Order.cancel o = { o with status := OStatus.cancelled } := by
  simp [Order.cancel, h]

theorem Order.update_of_done (o : Order) (peer : Option Order) (ts : ℕ) (p : ℚ)
    (h : o.is_done = true) : o.update peer ts p = (o, peer) := by
  simp [Order.update, h]

theorem Order.update_fst_cancelled_iff (o : Order) (peer : Option Order) (ts : ℕ) (p : ℚ) :
    (o.update peer ts p).1.status = OStatus.cancelled ↔ o.status = OStatus.cancelled := by
  by_cases h : o.is_done = true
  · simp [Order.update_of_done o peer ts p h]
  · rw [Bool.not_eq_true] at h
    rcases (Order.is_done_false_iff o).mp h with hs | hs <;>
      simp [Order.update, Order.fill, Order.is_done, hs] <;>
      split_ifs <;> simp_all

theorem Order.update_snd_of_not_filled (o : Order) (peer : Option Order) (ts : ℕ) (p : ℚ)
    (h : (o.update peer ts p).1.status ≠ OStatus.filled) : (o.update peer ts p).2 = peer := by
  by_cases hd : o.is_done = true
  · simp [Order.update_of_done o peer ts p hd]
  · rw [Bool.not_eq_true] at hd
    rcases (Order.is_done_false_iff o).mp hd with hs | hs <;>
      revert h <;>
      simp [Order.update, Order.fill, Order.is_done, hs] <;>
      split_ifs <;> simp_all

theorem Order.update_snd_of_filled (o : Order) (peer : Option Order) (ts : ℕ) (p : ℚ)
    (hnf : o.status ≠ OStatus.filled)
    (h : (o.update peer ts p).1.status = OStatus.filled) :
    (o.update peer ts p).2 = peer.map Order.cancel := by
  by_cases hd : o.is_done = true
  · rcases (Order.is_done_true_iff o).mp hd with hs | hs
    · exact absurd hs hnf
    · simp [Order.update_of_done o peer ts p hd] at h
      simp_all
  · rw [Bool.not_eq_true] at hd
    rcases (Order.is_done_false_iff o).mp hd with hs | hs <;>
      revert h <;>
      simp [Order.update, Order.fill, Order.is_done, hs] <;>
      split_ifs <;> simp_all

/-! ## The OCO invariant of the replay loop -/

/-- The linked-pair invariant: a `Filled` leg has a `Cancelled` peer.
This is what the synchronous cascade in `Order.fill` maintains; it
immediately rules out both legs being `Filled`. -/
def OcoInv (b : Backtester) : Prop :=
  (b.tp.status = OStatus.filled → b.sl.status = OStatus.cancelled) ∧
  (b.sl.status = OStatus.filled → b.tp.status = OStatus.cancelled)

theorem Backtester.execute_fill_tp (b : Backtester) (o : Order) :
    (b.execute_fill o).tp = b.tp := by
  unfold Backtester.execute_fill
  split <;> rfl

theorem Backtester.execute_fill_sl (b : Backtester) (o : Order) :
    (b.execute_fill o).sl = b.sl := by
  unfold Backtester.execute_fill
  split <;> rfl

theorem Backtester.observe_tp_tp (b : Backtester) (ts : ℕ) (p : ℚ) :
    (b.observe_tp ts p).tp = (b.tp.update (some b.sl) ts p).1 := by
  simp only [Backtester.observe_tp]
  split <;> simp [Backtester.execute_fill_tp]

theorem Backtester.observe_tp_sl (b : Backtester) (ts : ℕ) (p : ℚ) :
    (b.observe_tp ts p).sl = ((b.tp.update (some b.sl) ts p).2).getD b.sl := by
  simp only [Backtester.observe_tp]
  split <;> simp [Backtester.execute_fill_sl]

theorem Backtester.observe_sl_sl (b : Backtester) (ts : ℕ) (p : ℚ) :
    (b.observe_sl ts p).sl = (b.sl.update (some b.tp) ts p).1 := by
  simp only [Backtester.observe_sl]
  split <;> simp [Backtester.execute_fill_sl]

theorem Backtester.observe_sl_tp (b : Backtester) (ts : ℕ) (p : ℚ) :
    (b.observe_sl ts p).tp = ((b.sl.update (some b.tp) ts p).2).getD b.tp := by
  simp only [Backtester.observe_sl]
  split <;> simp [Backtester.execute_fill_tp]

theorem Backtester.observe_tp_inv (b : Backtester) (ts : ℕ) (p : ℚ) (h : OcoInv b) :
    OcoInv (b.observe_tp ts p) := by
  rw [OcoInv, Backtester.observe_tp_tp, Backtester.observe_tp_sl]
  by_cases htp : b.tp.status = OStatus.filled
  · have hd : b.tp.is_done = true := (Order.is_done_true_iff b.tp).mpr (Or.inl htp)
    rw [Order.update_of_done b.tp (some b.sl) ts p hd]
    exact ⟨fun _ => h.1 htp, fun hslf => absurd ((h.1 htp).symm.trans hslf) (by decide)⟩
  · by_cases hf : (b.tp.update (some b.sl) ts p).1.status = OStatus.filled
    · have hsnd := Order.update_snd_of_filled b.tp (some b.sl) ts p htp hf
      have hslnf : b.sl.status ≠ OStatus.filled := by
        intro hslf
        have hcan := h.2 hslf
        have hd : b.tp.is_done = true := (Order.is_done_true_iff b.tp).mpr (Or.inr hcan)
        rw [Order.update_of_done b.tp (some b.sl) ts p hd] at hf
        exact htp hf
      rw [hsnd]
      exact ⟨fun _ => by simpa using Order.cancel_status_of_not_filled b.sl hslnf,
        fun hslf => by
          have := Order.cancel_status_of_not_filled b.sl hslnf
          simp at hslf
          rw [hslf] at this
          exact absurd this (by simp)⟩
    · have hsnd := Order.update_snd_of_not_filled b.tp (some b.sl) ts p hf
      rw [hsnd]
      refine ⟨fun hff => absurd hff hf, fun hslf => ?_⟩
      have hcan := h.2 hslf
      have hd : b.tp.is_done = true := (Order.is_done_true_iff b.tp).mpr (Or.inr hcan)
      rw [Order.update_of_done b.tp (some b.sl) ts p hd]
      simpa using hcan

theorem Backtester.observe_sl_inv (b : Backtester) (ts : ℕ) (p : ℚ) (h : OcoInv b) :
    OcoInv (b.observe_sl ts p) := by
  rw [OcoInv, Backtester.observe_sl_tp, Backtester.observe_sl_sl]
  by_cases hsl : b.sl.status = OStatus.filled
  · have hd : b.sl.is_done = true := (Order.is_done_true_iff b.sl).mpr (Or.inl hsl)
    rw [Order.update_of_done b.sl (some b.tp) ts p hd]
    exact ⟨fun htpf => absurd ((h.2 hsl).symm.trans htpf) (by decide), fun _ => h.2 hsl⟩
  · by_cases hf : (b.sl.update (some b.tp) ts p).1.status = OStatus.filled
    · have hsnd := Order.update_snd_of_filled b.sl (some b.tp) ts p hsl hf
      have htpnf : b.tp.status ≠ OStatus.filled := by
        intro htpf
        have hcan := h.1 htpf
        have hd : b.sl.is_done = true := (Order.is_done_true_iff b.sl).mpr (Or.inr hcan)
        rw [Order.update_of_done b.sl (some b.tp) ts p hd] at hf
        exact hsl hf
      rw [hsnd]
      exact ⟨fun htpf => by
          have := Order.cancel_status_of_not_filled b.tp htpnf
          simp at htpf
          rw [htpf] at this
          exact absurd this (by simp),
        fun _ => by simpa using Order.cancel_status_of_not_filled b.tp htpnf⟩
    · have hsnd := Order.update_snd_of_not_filled b.sl (some b.tp) ts p hf
      rw [hsnd]
      refine ⟨fun htpf => ?_, fun hff => absurd hff hf⟩
      have hcan := h.1 htpf
      have hd : b.sl.is_done = true := (Order.is_done_true_iff b.sl).mpr (Or.inr hcan)
      rw [Order.update_of_done b.sl (some b.tp) ts p hd]
      simpa using hcan

theorem Backtester.midTp_inv (b : Backtester) (ts : ℕ) (p : ℚ) (h : OcoInv b) :
    OcoInv (b.midTp ts p) := by
  unfold Backtester.midTp
  split
  · exact Backtester.observe_tp_inv b ts p h
  · exact h

theorem Backtester.midSl_inv (b : Backtester) (ts : ℕ) (p : ℚ) (h : OcoInv b) :
    OcoInv (b.midSl ts p) := by
  unfold Backtester.midSl
  split
  · exact Backtester.observe_sl_inv b ts p h
  · exact h

theorem Backtester.tick_inv (b : Backtester) (ts : ℕ) (p : ℚ) (h : OcoInv b) :
    OcoInv (b.tick ts p) := by
  have h2 := Backtester.midSl_inv (b.midTp ts p) ts p (Backtester.midTp_inv b ts p h)
  unfold Backtester.tick
  exact ⟨h2.1, h2.2⟩

theorem Backtester.runTrace_inv (ticks : List (ℕ × ℚ)) (b : Backtester) (h : OcoInv b) :
    ∀ s ∈ b.runTrace ticks, OcoInv s := by
  induction ticks generalizing b with
  | nil =>
      intro s hs
      simp [Backtester.runTrace] at hs
      exact hs ▸ h
  | cons t rest ih =>
      intro s hs
      simp only [Backtester.runTrace, List.mem_cons] at hs
      rcases hs with rfl | rfl | rfl | hs
      · exact h
      · exact Backtester.midTp_inv b t.1 t.2 h
      · exact Backtester.midSl_inv _ t.1 t.2 (Backtester.midTp_inv b t.1 t.2 h)
      · exact ih (b.tick t.1 t.2) (Backtester.tick_inv b t.1 t.2 h) s hs

theorem Backtester.init_inv (cash0 p0 : ℚ) : OcoInv (Backtester.init cash0 p0) := by
  refine ⟨fun h => ?_, fun h => ?_⟩ <;>
    simp [Backtester.init, Backtester.place_oco_pair] at h

theorem Order.is_buy_iff (o : Order) : o.is_buy = true ↔ o.side = Side.buy := by
  cases h : o.side <;> simp [Order.is_buy, h]

theorem Order.is_sell_iff (o : Order) : o.is_sell = true ↔ o.side = Side.sell := by
  cases h : o.side <;> simp [Order.is_sell, h]

/-- Folding a tick feed through `Order.update` for a single, unlinked
order (`oco_peer is None`). -/
def Order.applyTicks (o : Order) (ticks : List (ℕ × ℚ)) : Order :=
  ticks.foldl (fun a τ => (a.update none τ.1 τ.2).1) o

/-- The stop-loss leg of the spec's Scenario B: a Sell stop-limit with
trigger price 98 and limit price 98 (in `Backtester.place_oco_order` the
stop leg's limit and trigger coincide). -/
def scenarioStopLimit : Order :=
  ⟨OrderType.stopLimit, Side.sell, 1, some 98, some 98, OStatus.pending, none, none, none⟩

/-- **C1.** For every OCO pair driven by the replay loop over any tick
sequence, at no point in history (including the intermediate states
inside each tick) are both legs simultaneously `Filled`; and when a leg
reaches `Filled` during an observation step, its not-yet-terminal peer is
set to `Cancelled` synchronously within that same observation step. -/
theorem oco_pair_never_both_filled :
    (∀ (cash0 p0 : ℚ) (ticks : List (ℕ × ℚ)) (s : Backtester),
        s ∈ (Backtester.init cash0 p0).runTrace ticks →
        ¬(s.tp.status = OStatus.filled ∧ s.sl.status = OStatus.filled)) ∧
    (∀ (o peer : Order) (ts : ℕ) (p : ℚ),
        peer.is_done = false → o.status ≠ OStatus.filled →
        (o.update (some peer) ts p).1.status = OStatus.filled →
        (o.update (some peer) ts p).2 =
          some { peer with status := OStatus.cancelled }) := by
  constructor
  · intro cash0 p0 ticks s hs hboth
    have hinv := Backtester.runTrace_inv ticks _ (Backtester.init_inv cash0 p0) s hs
    exact absurd ((hinv.1 hboth.1).symm.trans hboth.2) (by decide)
  · intro o peer ts p hpd hnf hf
    rw [Order.update_snd_of_filled o (some peer) ts p hnf hf]
    simp [Order.cancel_eq_of_not_done peer hpd]

theorem oco_pair_never_both_filled_wit :
    (¬((Backtester.init 10000 100).tp.status = OStatus.filled ∧
        (Backtester.init 10000 100).sl.status = OStatus.filled)) ∧
    (((⟨OrderType.limit, Side.sell, 1, some 105, none, OStatus.pending, none, none,
          none⟩ : Order).update (some scenarioStopLimit) 0 105).2 =
      some { scenarioStopLimit with status := OStatus.cancelled }) :=
  ⟨oco_pair_never_both_filled.1 10000 100 [] _ (by simp [Backtester.runTrace]),
    oco_pair_never_both_filled.2 _ scenarioStopLimit 0 105 (by decide) (by decide)
      (by decide)⟩

/-- **C3 counterexample.** The claim says every subsequent operation on a
terminal order — including `fill` — leaves its status unchanged.  But
`Order.fill` is guarded only by `status == 'FILLED'`: invoked on an
already-`Cancelled` order it overwrites the status to `Filled`. -/
theorem fill_on_cancelled_changes_status :
    ((⟨OrderType.limit, Side.sell, 1, some 100, none, OStatus.cancelled, none, none,
        none⟩ : Order).fill none 1 100).1.status = OStatus.filled ∧
    (⟨OrderType.limit, Side.sell, 1, some 100, none, OStatus.cancelled, none, none,
        none⟩ : Order).status = OStatus.cancelled := by
  decide

/-- **C3 (amended).** `update` and `cancel` leave a terminal
(`Filled`/`Cancelled`) order unchanged, `cancel` is idempotent (a second
`cancel`, or `cancel` on a `Filled` order, never changes the status), and
`fill` is a no-op on an already-`Filled` order.  (Only a direct `fill` on
a `Cancelled` order — which `update` never performs, since it checks
`is_done` first — escapes the terminality rule; see the counterexample.) -/
theorem terminal_noop_cancel_idempotent (o : Order) (peer : Option Order) (ts : ℕ) (p : ℚ) :
    (o.is_done = true → o.update peer ts p = (o, peer)) ∧
    (o.is_done = true → o.cancel = o) ∧
    (o.cancel.cancel = o.cancel) ∧
    (o.status = OStatus.filled → o.fill peer ts p = (o, peer)) := by
  refine ⟨fun h => Order.update_of_done o peer ts p h,
    fun h => Order.cancel_of_done o h, ?_, fun h => by simp [Order.fill, h]⟩
  by_cases h : o.is_done = true
  · rw [Order.cancel_of_done o h, Order.cancel_of_done o h]
  · rw [Bool.not_eq_true] at h
    rw [Order.cancel_eq_of_not_done o h]
    exact Order.cancel_of_done _ rfl

theorem terminal_noop_cancel_idempotent_wit :
    ((⟨OrderType.limit, Side.sell, 1, some 100, none, OStatus.filled, none, none,
        none⟩ : Order).update none 1 99 =
      (⟨OrderType.limit, Side.sell, 1, some 100, none, OStatus.filled, none, none,
        none⟩, none)) ∧
    ((⟨OrderType.limit, Side.sell, 1, some 100, none, OStatus.filled, none, none,
        none⟩ : Order).fill none 1 99 =
      (⟨OrderType.limit, Side.sell, 1, some 100, none, OStatus.filled, none, none,
        none⟩, none)) :=
  ⟨(terminal_noop_cancel_idempotent _ none 1 99).1 (by decide),
    (terminal_noop_cancel_idempotent _ none 1 99).2.2.2 (by decide)⟩

/-- **C5.** A fill-eligible order — one that is `Active`, or a plain
`Limit` order even while still `Pending` — observed at price `p` becomes
`Filled` exactly when `(Buy ∧ p ≤ limitPrice) ∨ (Sell ∧ limitPrice ≤ p)`,
recording `filled_at` as the observation timestamp and `filled_price` as
`p`; a plain `Limit` order never passes through `Active` first. -/
theorem limit_fill_eligible_iff (o : Order) (peer : Option Order) (ts : ℕ) (p lp : ℚ)
    (hp : o.price = some lp)
    (helig : o.status = OStatus.active ∨
      (o.order_type = OrderType.limit ∧ o.status = OStatus.pending)) :
    ((o.update peer ts p).1.status = OStatus.filled ↔
      ((o.side = Side.buy ∧ p ≤ lp) ∨ (o.side = Side.sell ∧ lp ≤ p))) ∧
    (((o.side = Side.buy ∧ p ≤ lp) ∨ (o.side = Side.sell ∧ lp ≤ p)) →
      (o.update peer ts p).1.filled_at = some ts ∧
        (o.update peer ts p).1.filled_price = some p) := by
  rcases helig with hs | ⟨hty, hs⟩ <;>
    cases hside : o.side <;>
      simp [Order.update, Order.fill, Order.is_done, Order.is_buy, Order.is_sell,
        hs, hp, hside] <;>
      split_ifs <;> simp_all

theorem limit_fill_eligible_iff_wit :
    (((⟨OrderType.limit, Side.sell, 1, some 105, none, OStatus.pending, none, none,
        none⟩ : Order).update none 3 105).1.status = OStatus.filled ↔
      ((Side.sell = Side.buy ∧ (105 : ℚ) ≤ 105) ∨
        (Side.sell = Side.sell ∧ (105 : ℚ) ≤ 105))) ∧
    (((Side.sell = Side.buy ∧ (105 : ℚ) ≤ 105) ∨
        (Side.sell = Side.sell ∧ (105 : ℚ) ≤ 105)) →
      ((⟨OrderType.limit, Side.sell, 1, some 105, none, OStatus.pending, none, none,
        none⟩ : Order).update none 3 105).1.filled_at = some 3 ∧
      ((⟨OrderType.limit, Side.sell, 1, some 105, none, OStatus.pending, none, none,
        none⟩ : Order).update none 3 105).1.filled_price = some 105) :=
  limit_fill_eligible_iff _ none 3 105 105 (by decide) (Or.inr ⟨by decide, by decide⟩)

/-- **C6.** A `Pending` stop-limit observed at price `p` leaves `Pending`
(activating, and possibly filling in the same call) exactly when
`(Buy ∧ triggerPrice ≤ p) ∨ (Sell ∧ p ≤ triggerPrice)`; in particular the
Scenario-B Sell stop-limit with trigger 98 driven through ticks
`[100, 102, 97, 99]` is still `Pending` after 100 and 102 and becomes
`Active` exactly at the tick with price 97. -/
theorem stop_trigger_activation :
    (∀ (o : Order) (peer : Option Order) (ts : ℕ) (p t : ℚ),
        o.order_type = OrderType.stopLimit → o.status = OStatus.pending →
        o.trigger_price = some t →
        (((o.update peer ts p).1.status = OStatus.active ∨
            (o.update peer ts p).1.status = OStatus.filled) ↔
          ((o.side = Side.buy ∧ t ≤ p) ∨ (o.side = Side.sell ∧ p ≤ t)))) ∧
    (scenarioStopLimit.applyTicks [(0, 100)]).status = OStatus.pending ∧
    (scenarioStopLimit.applyTicks [(0, 100), (1, 102)]).status = OStatus.pending ∧
    (scenarioStopLimit.applyTicks [(0, 100), (1, 102), (2, 97)]).status = OStatus.active := by
  refine ⟨?_, by decide, by decide, by decide⟩
  intro o peer ts p t hty hs ht
  cases hside : o.side <;>
    simp [Order.update, Order.fill, Order.is_done, Order.is_buy, Order.is_sell,
      hty, hs, ht, hside] <;>
    split_ifs <;> simp_all

theorem stop_trigger_activation_wit :
    ((scenarioStopLimit.update none 2 97).1.status = OStatus.active ∨
      (scenarioStopLimit.update none 2 97).1.status = OStatus.filled) ↔
    ((scenarioStopLimit.side = Side.buy ∧ (98 : ℚ) ≤ 97) ∨
      (scenarioStopLimit.side = Side.sell ∧ (97 : ℚ) ≤ 98)) :=
  (stop_trigger_activation.1 scenarioStopLimit none 2 97 98 (by decide) (by decide)
    (by decide))

/-- **C10.** A `Pending` stop-limit whose limit and trigger bracket the
observed price is activated and filled within the same `update` call: for
a Sell leg, `limitPrice ≤ p ≤ triggerPrice` yields `Filled` with
`filled_price = p` (and `filled_at` the observation timestamp) in one
observation; symmetrically `triggerPrice ≤ p ≤ limitPrice` for a Buy leg. -/
theorem stop_limit_same_tick_fill (o : Order) (peer : Option Order) (ts : ℕ) (p lp t : ℚ)
    (hty : o.order_type = OrderType.stopLimit) (hs : o.status = OStatus.pending)
    (hp : o.price = some lp) (ht : o.trigger_price = some t) :
    (o.side = Side.sell → lp ≤ p → p ≤ t →
      (o.update peer ts p).1.status = OStatus.filled ∧
        (o.update peer ts p).1.filled_price = some p ∧
        (o.update peer ts p).1.filled_at = some ts) ∧
    (o.side = Side.buy → t ≤ p → p ≤ lp →
      (o.update peer ts p).1.status = OStatus.filled ∧
        (o.update peer ts p).1.filled_price = some p ∧
        (o.update peer ts p).1.filled_at = some ts) := by
  cases hside : o.side <;>
    simp [Order.update, Order.fill, Order.is_done, Order.is_buy, Order.is_sell,
      hty, hs, hp, ht, hside] <;>
    split_ifs <;> simp_all

theorem stop_limit_same_tick_fill_wit :
    ((⟨OrderType.stopLimit, Side.sell, 1, some 97, some 98, OStatus.pending, none, none,
        none⟩ : Order).update none 5 98).1.status = OStatus.filled ∧
    ((⟨OrderType.stopLimit, Side.sell, 1, some 97, some 98, OStatus.pending, none, none,
        none⟩ : Order).update none 5 98).1.filled_price = some 98 ∧
    ((⟨OrderType.stopLimit, Side.sell, 1, some 97, some 98, OStatus.pending, none, none,
        none⟩ : Order).update none 5 98).1.filled_at = some 5 :=
  (stop_limit_same_tick_fill _ none 5 98 97 98 (by decide) (by decide) (by decide)
    (by decide)).1 (by decide) (by norm_num) (by norm_num)

/-! ## Quantity/price validation (src/validation.py)

`validate_order_params` works on `Decimal` values parsed from the
exchange's decimal strings.  A decimal string is modelled by `Dec`
(integer mantissa and number of decimal places, value
`mant / 10 ^ scale`), its value embedding exactly into `ℚ`.
Python's `Decimal.__mod__` is the remainder of division truncated toward
zero (sign of the dividend), and `Decimal.quantize(step, ROUND_DOWN)`
truncates toward zero at `step`'s decimal exponent — both are modelled
below.  The source signals each failure as `return False` under a
distinct `log.error` message; the result type keeps those branches
distinct (with the logged suggested quantity carried on the step
mismatch), and `ok` is the source's `return True`. -/

/-- A decimal value as parsed from an exchange filter string:
`mant / 10 ^ scale` (e.g. `"0.001"` is `⟨1, 3⟩`). -/
structure Dec where
  mant : ℤ
  scale : ℕ
deriving DecidableEq, Repr

/-- The rational value of a decimal. -/
def Dec.val (d : Dec) : ℚ := (d.mant : ℚ) / (10 : ℚ) ^ d.scale

/-- Truncation toward zero, as in `Decimal` division underlying `%`. -/
def ratTrunc (q : ℚ) : ℤ := if 0 ≤ q then ⌊q⌋ else -⌊-q⌋

/-- Python `Decimal.__mod__`: remainder with the dividend's sign
(truncated division). -/
def decMod (a b : ℚ) : ℚ := a - b * ratTrunc (a / b)

/-- `Decimal.quantize(d, ROUND_DOWN)` where `d` has `scale` decimal
places: truncate toward zero at that decimal exponent. -/
def quantizeDown (a : ℚ) (scale : ℕ) : ℚ :=
  (ratTrunc (a * (10 : ℚ) ^ scale) : ℚ) / (10 : ℚ) ^ scale

/-- The `LOT_SIZE` filter of a symbol. -/
structure LotSizeFilter where
  minQty : Dec
  maxQty : Dec
  stepSize : Dec
deriving DecidableEq, Repr

/-- The `PRICE_FILTER` of a symbol. -/
structure PriceFilter where
  minPrice : Dec
  maxPrice : Dec
  tickSize : Dec
deriving DecidableEq, Repr

/-- A symbol's trading rules: `filters.get('LOT_SIZE')` and
`filters.get('PRICE_FILTER')` may each be absent. -/
structure SymbolInfo where
  lot_size : Option LotSizeFilter
  price_filter : Option PriceFilter
deriving DecidableEq, Repr

/-- The outcome of `validate_order_params`: `ok` is `return True`; each
other constructor is one of the distinct `log.error` + `return False`
branches (the step mismatch carries the suggested quantity the source
logs). -/
inductive ValidationResult where
  | ok
  | quantityTooSmall
  | quantityTooLarge
  | quantityStepMismatch (suggested : ℚ)
  | priceTooLow
  | priceTooHigh
  | priceTickMismatch
deriving DecidableEq, Repr

/-- The `LOT_SIZE` section of `validate_order_params`: `none` means the
section found no error (filter absent, or all checks passed). -/
def validate_lot_size : Option LotSizeFilter → ℚ → Option ValidationResult
  | none, _ => none
  | some f, quantity =>
      if quantity < f.minQty.val then some ValidationResult.quantityTooSmall
      else if f.maxQty.val < quantity then some ValidationResult.quantityTooLarge
      else if decMod (quantity - f.minQty.val) f.stepSize.val ≠ 0 then
        some (ValidationResult.quantityStepMismatch
          (quantizeDown (quantity - f.minQty.val) f.stepSize.scale + f.minQty.val))
      else none

/-- The `PRICE_FILTER` section of `validate_order_params` (reached only
when a price was supplied): `price > max_price and max_price > 0` is the
too-high test — a `maxPrice` of 0 disables the upper bound. -/
def validate_price : Option PriceFilter → ℚ → Option ValidationResult
  | none, _ => none
  | some f, price =>
      if price < f.minPrice.val then some ValidationResult.priceTooLow
      else if f.maxPrice.val < price ∧ 0 < f.maxPrice.val then
        some ValidationResult.priceTooHigh
      else if decMod (price - f.minPrice.val) f.tickSize.val ≠ 0 then
        some ValidationResult.priceTickMismatch
      else none

/-- `OrderValidator.validate_order_params(symbol, quantity, price)` once
the symbol's rules have been found: quantity checks first, then — only if
a price was supplied — the price checks. -/
def validate_order_params (info : SymbolInfo) (quantity : ℚ) (price : Option ℚ) :
    ValidationResult :=
  match validate_lot_size info.lot_size quantity with
  | some e => e
  | none =>
      match price with
      | none => ValidationResult.ok
      | some p =>
          match validate_price info.price_filter p with
          | some e => e
          | none => ValidationResult.ok

/-- The spec's description of the suggested quantity: flooring
`(quantity − minQty)` to the nearest multiple of `stepQty` and adding
back `minQty` (spec wording; to be compared with the source's
`quantize(step_size, ROUND_DOWN)`). -/
def suggestedQtySpec (f : LotSizeFilter) (q : ℚ) : ℚ :=
  f.minQty.val + f.stepSize.val * ⌊(q - f.minQty.val) / f.stepSize.val⌋

/-- **C2.** For every rule whose `LOT_SIZE` filter is present (with the
positive step size published rules carry) and every quantity `q`,
quantity validation succeeds iff `minQty ≤ q ≤ maxQty` and
`(q − minQty) mod stepSize = 0`, the modulo test being exact (rational)
decimal arithmetic with no epsilon tolerance. -/
theorem lot_size_validation_iff (f : LotSizeFilter) (pf : Option PriceFilter) (q : ℚ)
    (_hstep : 0 < f.stepSize.val) :
    validate_order_params ⟨some f, pf⟩ q none = ValidationResult.ok ↔
      (f.minQty.val ≤ q ∧ q ≤ f.maxQty.val ∧
        decMod (q - f.minQty.val) f.stepSize.val = 0) := by
  by_cases h1 : q < f.minQty.val
  · simp [validate_order_params, validate_lot_size, h1, not_le.mpr h1]
  · by_cases h2 : f.maxQty.val < q
    · simp [validate_order_params, validate_lot_size, h1, h2, not_le.mpr h2]
    · by_cases h3 : decMod (q - f.minQty.val) f.stepSize.val ≠ 0
      · simp [validate_order_params, validate_lot_size, h1, h2, h3]
      · rw [not_not] at h3
        simp [validate_order_params, validate_lot_size, h1, h2, h3,
          not_lt.mp h1, not_lt.mp h2]

theorem lot_size_validation_iff_wit :
    validate_order_params ⟨some ⟨⟨1, 3⟩, ⟨1000, 0⟩, ⟨1, 3⟩⟩, none⟩ (2 / 1000) none =
        ValidationResult.ok ↔
      (Dec.val ⟨1, 3⟩ ≤ 2 / 1000 ∧ (2 / 1000 : ℚ) ≤ Dec.val ⟨1000, 0⟩ ∧
        decMod (2 / 1000 - Dec.val ⟨1, 3⟩) (Dec.val ⟨1, 3⟩) = 0) :=
  lot_size_validation_iff ⟨⟨1, 3⟩, ⟨1000, 0⟩, ⟨1, 3⟩⟩ none (2 / 1000)
    (by norm_num [Dec.val])

/-- **C7 counterexample.** For the rule
`{minQty = 0.001, maxQty = 1000000, stepQty = 0.002}` and quantity
`0.004` (base `0.003`, not on the `0.002` grid from `0.001`), the code's
suggested quantity is `quantize(0.002, ROUND_DOWN)` of the base — i.e.
`0.003` truncated at the third decimal place, which is `0.003` itself —
plus `minQty`, giving `0.004`; the claim's "floor to the nearest multiple
of stepQty" formula gives `0.001 + 0.002 = 0.003` instead. -/
theorem step_suggestion_not_multiple :
    validate_order_params ⟨some ⟨⟨1, 3⟩, ⟨1000000, 0⟩, ⟨2, 3⟩⟩, none⟩ (1 / 250) none =
      ValidationResult.quantityStepMismatch (1 / 250) ∧
    suggestedQtySpec ⟨⟨1, 3⟩, ⟨1000000, 0⟩, ⟨2, 3⟩⟩ (1 / 250) = 3 / 1000 ∧
    (1 / 250 : ℚ) ≠ 3 / 1000 := by
  refine ⟨?_, ?_, by norm_num⟩
  · norm_num [validate_order_params, validate_lot_size, decMod, ratTrunc, Dec.val,
      quantizeDown]
  · norm_num [suggestedQtySpec, Dec.val]

/-- **C7 (amended).** When the bounds pass and the step check fails, the
rejection is a `quantityStepMismatch` whose suggested quantity is
`minQty` plus `(q − minQty)` rounded down at `stepSize`'s decimal
exponent (`Decimal.quantize(step_size, ROUND_DOWN)`); this equals
flooring to a multiple of `stepSize` exactly when the step is one unit in
its last decimal place (e.g. any power of ten), as in Scenario A, whose
instance (rule `{0.001, 1000, 0.001}`, request `0.0015`, suggestion
`0.001`) is the final conjunct. -/
theorem step_suggestion_quantize (f : LotSizeFilter) (pf : Option PriceFilter) (q : ℚ)
    (h1 : ¬ q < f.minQty.val) (h2 : ¬ f.maxQty.val < q)
    (h3 : decMod (q - f.minQty.val) f.stepSize.val ≠ 0) :
    (validate_order_params ⟨some f, pf⟩ q none =
      ValidationResult.quantityStepMismatch
        (quantizeDown (q - f.minQty.val) f.stepSize.scale + f.minQty.val)) ∧
    (∀ (x : ℚ) (k : ℕ), 0 ≤ x →
      quantizeDown x k = Dec.val ⟨1, k⟩ * ⌊x / Dec.val ⟨1, k⟩⌋) ∧
    (validate_order_params ⟨some ⟨⟨1, 3⟩, ⟨1000, 0⟩, ⟨1, 3⟩⟩, none⟩ (15 / 10000) none =
      ValidationResult.quantityStepMismatch (1 / 1000)) := by
  refine ⟨by simp [validate_order_params, validate_lot_size, h1, h2, h3], ?_, ?_⟩
  · intro x k hx
    have h10 : (0 : ℚ) < 10 ^ k := by positivity
    have harg : x / Dec.val ⟨1, k⟩ = x * 10 ^ k := by
      rw [Dec.val]
      push_cast
      rw [div_div_eq_mul_div, div_one]
    rw [quantizeDown, ratTrunc, harg, if_pos (by positivity), Dec.val]
    push_cast
    rw [one_div, div_eq_mul_inv, mul_comm]
  · norm_num [validate_order_params, validate_lot_size, decMod, ratTrunc, Dec.val,
      quantizeDown]

theorem step_suggestion_quantize_wit :
    validate_order_params ⟨some ⟨⟨1, 3⟩, ⟨1000, 0⟩, ⟨1, 3⟩⟩, none⟩ (15 / 10000) none =
      ValidationResult.quantityStepMismatch
        (quantizeDown (15 / 10000 - Dec.val ⟨1, 3⟩) 3 + Dec.val ⟨1, 3⟩) :=
  (step_suggestion_quantize ⟨⟨1, 3⟩, ⟨1000, 0⟩, ⟨1, 3⟩⟩ none (15 / 10000)
    (by norm_num [Dec.val]) (by norm_num [Dec.val])
    (by norm_num [decMod, ratTrunc, Dec.val])).1

/-- **C9.** With a `PRICE_FILTER` present and a price supplied (and the
quantity section passing), validation fails `priceTooLow` exactly when
`p < minPrice`; fails `priceTooHigh` exactly when additionally
`maxPrice > 0` and `p > maxPrice` — so with `maxPrice = 0` no price is
ever rejected as too high; and fails `priceTickMismatch` exactly when the
earlier checks pass and `(p − minPrice) mod tickSize ≠ 0`. -/
theorem price_filter_checks (lot : Option LotSizeFilter) (f : PriceFilter) (q p : ℚ)
    (hq : validate_lot_size lot q = none) :
    (validate_order_params ⟨lot, some f⟩ q (some p) = ValidationResult.priceTooLow ↔
      p < f.minPrice.val) ∧
    (validate_order_params ⟨lot, some f⟩ q (some p) = ValidationResult.priceTooHigh ↔
      (¬ p < f.minPrice.val ∧ 0 < f.maxPrice.val ∧ f.maxPrice.val < p)) ∧
    (validate_order_params ⟨lot, some f⟩ q (some p) = ValidationResult.priceTickMismatch ↔
      (¬ p < f.minPrice.val ∧ ¬(f.maxPrice.val < p ∧ 0 < f.maxPrice.val) ∧
        decMod (p - f.minPrice.val) f.tickSize.val ≠ 0)) := by
  by_cases h1 : p < f.minPrice.val
  · simp [validate_order_params, validate_price, hq, h1]
  · by_cases h2 : f.maxPrice.val < p ∧ 0 < f.maxPrice.val
    · simp [validate_order_params, validate_price, hq, h1, h2, h2.1, h2.2]
    · have h2b : 0 < f.maxPrice.val → p ≤ f.maxPrice.val :=
        fun hm => not_lt.mp (fun hp2 => h2 ⟨hp2, hm⟩)
      by_cases h3 : decMod (p - f.minPrice.val) f.tickSize.val ≠ 0
      · simp [validate_order_params, validate_price, hq, h1, h2, h3]
        exact h2b
      · rw [not_not] at h3
        simp [validate_order_params, validate_price, hq, h1, h2, h3]
        exact h2b

theorem price_filter_checks_wit :
    (validate_order_params ⟨none, some ⟨⟨1, 2⟩, ⟨0, 0⟩, ⟨1, 2⟩⟩⟩ 1 (some 1000000) =
        ValidationResult.priceTooLow ↔ (1000000 : ℚ) < Dec.val ⟨1, 2⟩) ∧
    (validate_order_params ⟨none, some ⟨⟨1, 2⟩, ⟨0, 0⟩, ⟨1, 2⟩⟩⟩ 1 (some 1000000) =
        ValidationResult.priceTooHigh ↔
      (¬ (1000000 : ℚ) < Dec.val ⟨1, 2⟩ ∧ 0 < Dec.val ⟨0, 0⟩ ∧
        Dec.val ⟨0, 0⟩ < 1000000)) ∧
    (validate_order_params ⟨none, some ⟨⟨1, 2⟩, ⟨0, 0⟩, ⟨1, 2⟩⟩⟩ 1 (some 1000000) =
        ValidationResult.priceTickMismatch ↔
      (¬ (1000000 : ℚ) < Dec.val ⟨1, 2⟩ ∧
        ¬(Dec.val ⟨0, 0⟩ < 1000000 ∧ 0 < Dec.val ⟨0, 0⟩) ∧
        decMod (1000000 - Dec.val ⟨1, 2⟩) (Dec.val ⟨1, 2⟩) ≠ 0)) :=
  price_filter_checks none ⟨⟨1, 2⟩, ⟨0, 0⟩, ⟨1, 2⟩⟩ 1 1000000 rfl

/-! ## Simulated OCO placement (src/strategies/oco.py)

`place_simulated_oco_order` makes up to three gateway calls — place the
take-profit leg, place the stop-loss leg, and (only on a stop-loss
placement failure) cancel the take-profit leg.  The outcome of each call
is passed in explicitly.  The function's Python return value is the list
of placed orders on success and `None` on every failure path; which
failure occurred is surfaced through distinct `log`/`print` messages,
modelled as an event trace: `slFailed` is the plain gateway-error surface
for the second leg, and `compensationFailure` is the distinct
`CRITICAL: Failed to cancel take-profit order … cancel it manually`
surface.  `cancel_calls` counts `futures_cancel_order` invocations. -/

/-- A `BinanceAPIException` from a gateway call, abstracted to its code. -/
structure GatewayError where
  code : ℤ
deriving DecidableEq, Repr

/-- A successful `futures_create_order` response, abstracted to its id. -/
structure PlacedOrder where
  orderId : ℕ
deriving DecidableEq, Repr

/-- The outcomes the exchange gateway would give to the three calls the
function can make. -/
structure OcoGateway where
  tp_result : Except GatewayError PlacedOrder
  sl_result : Except GatewayError PlacedOrder
  cancel_result : Except GatewayError Unit
deriving Repr

/-- The observable surfaces of `place_simulated_oco_order`: one event per
distinct log/print branch of the source. -/
inductive OcoEvent where
  | tpPlaced (orderId : ℕ)
  | tpFailed (e : GatewayError)
  | slPlaced (orderId : ℕ)
  | slFailed (e : GatewayError)
  | orphanCancelled
  | compensationFailure (orderId : ℕ) (e : GatewayError)
deriving DecidableEq, Repr

/-- The full observable outcome: the Python return value (`some` list of
placed orders, or `none`), the emitted event trace, and the number of
cancel calls made. -/
structure OcoOutcome where
  result : Option (List PlacedOrder)
  events : List OcoEvent
  cancel_calls : ℕ
deriving DecidableEq, Repr

/-- `place_simulated_oco_order`, with the gateway call outcomes supplied
by `gw`.  Take-profit placement failure returns before any stop-loss
attempt; stop-loss failure triggers exactly one compensating cancel of
the take-profit order, and a failure of that cancel is surfaced as the
distinct critical `compensationFailure` event; the function returns
`none` on every failure path. -/
def place_simulated_oco_order (gw : OcoGateway) : OcoOutcome :=
  match gw.tp_result with
  | Except.error e => ⟨none, [OcoEvent.tpFailed e], 0⟩
  | Except.ok tp =>
      match gw.sl_result with
      | Except.ok sl =>
          ⟨some [tp, sl],
            [OcoEvent.tpPlaced tp.orderId, OcoEvent.slPlaced sl.orderId], 0⟩
      | Except.error e =>
          match gw.cancel_result with
          | Except.ok _ =>
              ⟨none,
                [OcoEvent.tpPlaced tp.orderId, OcoEvent.slFailed e,
                  OcoEvent.orphanCancelled], 1⟩
          | Except.error ce =>
              ⟨none,
                [OcoEvent.tpPlaced tp.orderId, OcoEvent.slFailed e,
                  OcoEvent.compensationFailure tp.orderId ce], 1⟩

/-- **C4.** When the take-profit leg places successfully and the
stop-loss leg fails, exactly one compensating cancellation of the
take-profit leg is attempted.  If the cancellation succeeds, the outcome
surfaces the original stop-loss placement error (`slFailed e` — and no
orders are returned) with no `compensationFailure` raised; if the
cancellation itself fails, a `compensationFailure` is surfaced — an event
kind distinct from the plain gateway-error surface `slFailed`. -/
theorem oco_compensation_protocol (gw : OcoGateway) (tp : PlacedOrder) (e : GatewayError)
    (htp : gw.tp_result = Except.ok tp) (hsl : gw.sl_result = Except.error e) :
    (place_simulated_oco_order gw).cancel_calls = 1 ∧
    (place_simulated_oco_order gw).result = none ∧
    OcoEvent.slFailed e ∈ (place_simulated_oco_order gw).events ∧
    (gw.cancel_result = Except.ok () →
      (∀ (oid : ℕ) (ce : GatewayError),
        OcoEvent.compensationFailure oid ce ∉ (place_simulated_oco_order gw).events)) ∧
    (∀ ce : GatewayError, gw.cancel_result = Except.error ce →
      (OcoEvent.compensationFailure tp.orderId ce ∈ (place_simulated_oco_order gw).events ∧
        ∀ e2 : GatewayError, OcoEvent.compensationFailure tp.orderId ce ≠
          OcoEvent.slFailed e2)) := by
  rcases hc : gw.cancel_result with ce | u <;>
    simp [place_simulated_oco_order, htp, hsl, hc]

theorem oco_compensation_protocol_wit :
    (place_simulated_oco_order
      ⟨Except.ok ⟨1⟩, Except.error ⟨-1021⟩, Except.error ⟨-1000⟩⟩).cancel_calls = 1 ∧
    OcoEvent.compensationFailure 1 ⟨-1000⟩ ∈
      (place_simulated_oco_order
        ⟨Except.ok ⟨1⟩, Except.error ⟨-1021⟩, Except.error ⟨-1000⟩⟩).events :=
  ⟨(oco_compensation_protocol _ ⟨1⟩ ⟨-1021⟩ rfl rfl).1,
    ((oco_compensation_protocol _ ⟨1⟩ ⟨-1021⟩ rfl rfl).2.2.2.2 ⟨-1000⟩ rfl).1⟩

/-! ## Lemmas for the per-tick ledger behavior of the replay loop -/

theorem Order.update_fills (o : Order) (peer : Option Order) (ts : ℕ) (p lp : ℚ)
    (hp : o.price = some lp)
    (helig : o.status = OStatus.active ∨
      (o.order_type = OrderType.limit ∧ o.status = OStatus.pending))
    (hhit : (o.side = Side.buy ∧ p ≤ lp) ∨ (o.side = Side.sell ∧ lp ≤ p)) :
    (o.update peer ts p).1.status = OStatus.filled ∧
    (o.update peer ts p).1.filled_at = some ts ∧
    (o.update peer ts p).1.filled_price = some p ∧
    (o.update peer ts p).1.side = o.side ∧
    (o.update peer ts p).1.quantity = o.quantity ∧
    (o.update peer ts p).2 = peer.map Order.cancel := by
  rcases helig with hs | ⟨hty, hs⟩
  · rcases hhit with ⟨hside, hcmp⟩ | ⟨hside, hcmp⟩ <;>
      simp [Order.update, Order.fill, Order.is_done, Order.is_buy, Order.is_sell,
        hs, hp, hside, hcmp] <;>
      split_ifs <;> simp_all
  · rcases hhit with ⟨hside, hcmp⟩ | ⟨hside, hcmp⟩ <;>
      simp [Order.update, Order.fill, Order.is_done, Order.is_buy, Order.is_sell,
        hty, hs, hp, hside, hcmp] <;>
      split_ifs <;> simp_all

theorem Order.update_snd_cases (o : Order) (peer : Option Order) (ts : ℕ) (p : ℚ) :
    (o.update peer ts p).2 = peer ∨ (o.update peer ts p).2 = peer.map Order.cancel := by
  by_cases h : (o.update peer ts p).1.status = OStatus.filled
  · by_cases ho : o.status = OStatus.filled
    · left
      rw [Order.update_of_done o peer ts p ((Order.is_done_true_iff o).mpr (Or.inl ho))]
    · right
      exact Order.update_snd_of_filled o peer ts p ho h
  · left
    exact Order.update_snd_of_not_filled o peer ts p h

theorem Backtester.execute_fill_tpOpen (b : Backtester) (o : Order) :
    (b.execute_fill o).tpOpen = b.tpOpen := by
  unfold Backtester.execute_fill
  split <;> rfl

theorem Backtester.execute_fill_slOpen (b : Backtester) (o : Order) :
    (b.execute_fill o).slOpen = b.slOpen := by
  unfold Backtester.execute_fill
  split <;> rfl

theorem Backtester.observe_tp_tpOpen (b : Backtester) (ts : ℕ) (p : ℚ) :
    (b.observe_tp ts p).tpOpen = b.tpOpen := by
  simp only [Backtester.observe_tp]
  split <;> simp [Backtester.execute_fill_tpOpen]

theorem Backtester.observe_tp_slOpen (b : Backtester) (ts : ℕ) (p : ℚ) :
    (b.observe_tp ts p).slOpen = b.slOpen := by
  simp only [Backtester.observe_tp]
  split <;> simp [Backtester.execute_fill_slOpen]

theorem Backtester.tick_tp (b : Backtester) (ts : ℕ) (p : ℚ) :
    (b.tick ts p).tp = ((b.midTp ts p).midSl ts p).tp := rfl

theorem Backtester.tick_sl (b : Backtester) (ts : ℕ) (p : ℚ) :
    (b.tick ts p).sl = ((b.midTp ts p).midSl ts p).sl := rfl

theorem Backtester.tick_cash (b : Backtester) (ts : ℕ) (p : ℚ) :
    (b.tick ts p).cash = ((b.midTp ts p).midSl ts p).cash := rfl

theorem Backtester.tick_position_size (b : Backtester) (ts : ℕ) (p : ℚ) :
    (b.tick ts p).position_size = ((b.midTp ts p).midSl ts p).position_size := rfl

theorem Backtester.tick_trade_log (b : Backtester) (ts : ℕ) (p : ℚ) :
    (b.tick ts p).trade_log = ((b.midTp ts p).midSl ts p).trade_log := rfl

theorem Backtester.tick_tpOpen (b : Backtester) (ts : ℕ) (p : ℚ) :
    (b.tick ts p).tpOpen =
      (((b.midTp ts p).midSl ts p).tpOpen && !((b.midTp ts p).midSl ts p).tp.is_done) := rfl

theorem Backtester.tick_slOpen (b : Backtester) (ts : ℕ) (p : ℚ) :
    (b.tick ts p).slOpen =
      (((b.midTp ts p).midSl ts p).slOpen && !((b.midTp ts p).midSl ts p).sl.is_done) := rfl

theorem Backtester.observe_tp_no_fill (b : Backtester) (ts : ℕ) (p : ℚ)
    (h : (b.tp.update (some b.sl) ts p).1.status ≠ OStatus.filled) :
    (b.observe_tp ts p).cash = b.cash ∧
    (b.observe_tp ts p).position_size = b.position_size ∧
    (b.observe_tp ts p).trade_log = b.trade_log := by
  simp only [Backtester.observe_tp]
  split
  · next hc => exact absurd hc h
  · simp

theorem Backtester.observe_sl_no_fill (b : Backtester) (ts : ℕ) (p : ℚ)
    (h : (b.sl.update (some b.tp) ts p).1.status ≠ OStatus.filled) :
    (b.observe_sl ts p).cash = b.cash ∧
    (b.observe_sl ts p).position_size = b.position_size ∧
    (b.observe_sl ts p).trade_log = b.trade_log := by
  simp only [Backtester.observe_sl]
  split
  · next hc => exact absurd hc h
  · simp

theorem Backtester.observe_tp_fill_eq (b : Backtester) (ts : ℕ) (p : ℚ)
    (h : (b.tp.update (some b.sl) ts p).1.status = OStatus.filled) :
    b.observe_tp ts p =
      Backtester.execute_fill
        { b with
            tp := (b.tp.update (some b.sl) ts p).1
            sl := ((b.tp.update (some b.sl) ts p).2).getD b.sl }
        (b.tp.update (some b.sl) ts p).1 := by
  simp only [Backtester.observe_tp]
  rw [if_pos h]

theorem Backtester.observe_sl_of_cancelled (b : Backtester) (ts : ℕ) (p : ℚ)
    (h : b.sl.status = OStatus.cancelled) : b.observe_sl ts p = b := by
  simp only [Backtester.observe_sl]
  rw [Order.update_of_done b.sl (some b.tp) ts p
    ((Order.is_done_true_iff b.sl).mpr (Or.inr h))]
  simp [h]

/-- **C8.** Per replay tick: (1) orders are observed in the insertion
order of the open set — when both legs of the (Sell/Sell) pair are
fill-eligible and hit at the same tick, the first-inserted take-profit
leg fills and the stop-loss leg is cancelled (not price priority), the
fill being applied to the ledger immediately within the tick (cash up by
`p × qty` for the Sell fill, position down, one `trade_log` entry) while
the cancelled leg contributes nothing; (2) `_execute_fill` applies a Buy
fill as cash − `filledPrice × qty` / position +, a Sell fill as cash + /
position −, appending a `trade_log` entry; (3) terminal orders are
removed from the open set before the next tick; (4) a tick in which
neither leg is `Filled` never mutates the ledger. -/
theorem replay_tick_ledger :
    (∀ (b : Backtester) (ts : ℕ) (p lp1 lp2 : ℚ),
        b.tpOpen = true → b.slOpen = true →
        b.tp.price = some lp1 → b.sl.price = some lp2 →
        b.tp.side = Side.sell → b.sl.side = Side.sell →
        (b.tp.status = OStatus.active ∨
          (b.tp.order_type = OrderType.limit ∧ b.tp.status = OStatus.pending)) →
        (b.sl.status = OStatus.active ∨
          (b.sl.order_type = OrderType.limit ∧ b.sl.status = OStatus.pending)) →
        lp1 ≤ p → lp2 ≤ p →
        ((b.tick ts p).tp.status = OStatus.filled ∧
          (b.tick ts p).sl.status = OStatus.cancelled ∧
          (b.tick ts p).cash = b.cash + p * b.tp.quantity ∧
          (b.tick ts p).position_size = b.position_size - b.tp.quantity ∧
          (b.tick ts p).trade_log = b.trade_log ++ [⟨some ts, Side.sell, some p⟩])) ∧
    (∀ (b : Backtester) (o : Order) (fp : ℚ), o.filled_price = some fp →
        ((o.is_buy = true →
            (b.execute_fill o).cash = b.cash - fp * o.quantity ∧
            (b.execute_fill o).position_size = b.position_size + o.quantity) ∧
          (o.is_sell = true →
            (b.execute_fill o).cash = b.cash + fp * o.quantity ∧
            (b.execute_fill o).position_size = b.position_size - o.quantity) ∧
          (b.execute_fill o).trade_log =
            b.trade_log ++ [⟨o.filled_at, o.side, o.filled_price⟩])) ∧
    (∀ (b : Backtester) (ts : ℕ) (p : ℚ),
        ((b.tick ts p).tpOpen = true → (b.tick ts p).tp.is_done = false) ∧
        ((b.tick ts p).slOpen = true → (b.tick ts p).sl.is_done = false)) ∧
    (∀ (b : Backtester) (ts : ℕ) (p : ℚ),
        (b.tick ts p).tp.status ≠ OStatus.filled →
        (b.tick ts p).sl.status ≠ OStatus.filled →
        ((b.tick ts p).cash = b.cash ∧
          (b.tick ts p).position_size = b.position_size ∧
          (b.tick ts p).trade_log = b.trade_log)) := by
  refine ⟨?_, ?_, ?_, ?_⟩
  · intro b ts p lp1 lp2 hto hso hp1 hp2 hsd1 hsd2 he1 he2 hc1 hc2
    obtain ⟨hst, hat, hfp, hsdu, hqt, hsnd⟩ :=
      Order.update_fills b.tp (some b.sl) ts p lp1 hp1 he1 (Or.inr ⟨hsd1, hc1⟩)
    have hslnf : b.sl.status ≠ OStatus.filled := by
      rcases he2 with h | ⟨_, h⟩ <;> simp [h]
    have hslc : ((b.tp.update (some b.sl) ts p).2).getD b.sl = Order.cancel b.sl := by
      rw [hsnd]
      rfl
    have hcanc : (Order.cancel b.sl).status = OStatus.cancelled :=
      Order.cancel_status_of_not_filled b.sl hslnf
    have hbuy : (b.tp.update (some b.sl) ts p).1.is_buy = false := by
      simp [Order.is_buy, hsdu, hsd1]
    have hobs := Backtester.observe_tp_fill_eq b ts p hst
    have hs1cash : (b.observe_tp ts p).cash = b.cash + p * b.tp.quantity := by
      rw [hobs]
      simp [Backtester.execute_fill, hbuy, hfp, hqt]
    have hs1pos : (b.observe_tp ts p).position_size = b.position_size - b.tp.quantity := by
      rw [hobs]
      simp [Backtester.execute_fill, hbuy, hqt]
    have hs1log : (b.observe_tp ts p).trade_log =
        b.trade_log ++ [⟨some ts, Side.sell, some p⟩] := by
      rw [hobs]
      simp [Backtester.execute_fill, hbuy, hat, hfp, hsdu, hsd1]
    have hs1tpst : (b.observe_tp ts p).tp.status = OStatus.filled := by
      rw [Backtester.observe_tp_tp]
      exact hst
    have hs1slst : (b.observe_tp ts p).sl.status = OStatus.cancelled := by
      rw [Backtester.observe_tp_sl, hslc]
      exact hcanc
    have hs1so : (b.observe_tp ts p).slOpen = true := by
      rw [Backtester.observe_tp_slOpen]
      exact hso
    have hm1 : b.midTp ts p = b.observe_tp ts p := by
      simp only [Backtester.midTp]
      rw [if_pos hto]
    have hm2 : (b.observe_tp ts p).midSl ts p = b.observe_tp ts p := by
      simp only [Backtester.midSl]
      rw [if_pos hs1so]
      exact Backtester.observe_sl_of_cancelled _ ts p hs1slst
    refine ⟨?_, ?_, ?_, ?_, ?_⟩
    · rw [Backtester.tick_tp, hm1, hm2]
      exact hs1tpst
    · rw [Backtester.tick_sl, hm1, hm2]
      exact hs1slst
    · rw [Backtester.tick_cash, hm1, hm2]
      exact hs1cash
    · rw [Backtester.tick_position_size, hm1, hm2]
      exact hs1pos
    · rw [Backtester.tick_trade_log, hm1, hm2]
      exact hs1log
  · intro b o fp hfp
    refine ⟨fun hb => ?_, fun hs => ?_, ?_⟩
    · constructor <;> simp [Backtester.execute_fill, hb, hfp]
    · have hb : o.is_buy = false := by
        cases hside : o.side <;> simp_all [Order.is_buy, Order.is_sell]
      constructor <;> simp [Backtester.execute_fill, hb, hfp]
    · simp only [Backtester.execute_fill]
      split <;> simp
  · intro b ts p
    constructor
    · rw [Backtester.tick_tpOpen, Backtester.tick_tp]
      intro h
      simp only [Bool.and_eq_true, Bool.not_eq_true'] at h
      exact h.2
    · rw [Backtester.tick_slOpen, Backtester.tick_sl]
      intro h
      simp only [Bool.and_eq_true, Bool.not_eq_true'] at h
      exact h.2
  · intro b ts p h1 h2
    rw [Backtester.tick_tp] at h1
    rw [Backtester.tick_sl] at h2
    rw [Backtester.tick_cash, Backtester.tick_position_size, Backtester.tick_trade_log]
    set c := b.midTp ts p with hc
    have hstepA : (c.midSl ts p).cash = c.cash ∧
        (c.midSl ts p).position_size = c.position_size ∧
        (c.midSl ts p).trade_log = c.trade_log ∧
        c.tp.status ≠ OStatus.filled := by
      by_cases hso : c.slOpen = true
      · have hm : c.midSl ts p = c.observe_sl ts p := by
          simp only [Backtester.midSl]
          rw [if_pos hso]
        have hnf : (c.sl.update (some c.tp) ts p).1.status ≠ OStatus.filled := by
          intro hfo
          apply h2
          rw [hm, Backtester.observe_sl_sl]
          exact hfo
        have hled := Backtester.observe_sl_no_fill c ts p hnf
        have htp_pres : (c.midSl ts p).tp = c.tp ∨
            (c.midSl ts p).tp = Order.cancel c.tp := by
          rw [hm, Backtester.observe_sl_tp]
          rcases Order.update_snd_cases c.sl (some c.tp) ts p with hcase | hcase <;>
            rw [hcase]
          · left
            rfl
          · right
            rfl
        have htpnf : c.tp.status ≠ OStatus.filled := by
          intro hfo
          apply h1
          rcases htp_pres with hh | hh <;> rw [hh]
          · exact hfo
          · rw [Order.cancel_of_done c.tp ((Order.is_done_true_iff c.tp).mpr (Or.inl hfo))]
            exact hfo
        exact ⟨by rw [hm]; exact hled.1, by rw [hm]; exact hled.2.1,
          by rw [hm]; exact hled.2.2, htpnf⟩
      · have hm : c.midSl ts p = c := by
          simp only [Backtester.midSl]
          rw [if_neg hso]
        refine ⟨by rw [hm], by rw [hm], by rw [hm], ?_⟩
        rw [hm] at h1
        exact h1
    have hstepB : c.cash = b.cash ∧ c.position_size = b.position_size ∧
        c.trade_log = b.trade_log := by
      by_cases hto : b.tpOpen = true
      · have hm : c = b.observe_tp ts p := by
          rw [hc]
          simp only [Backtester.midTp]
          rw [if_pos hto]
        have hnf : (b.tp.update (some b.sl) ts p).1.status ≠ OStatus.filled := by
          intro hfo
          apply hstepA.2.2.2
          rw [hm, Backtester.observe_tp_tp]
          exact hfo
        have hled := Backtester.observe_tp_no_fill b ts p hnf
        exact ⟨by rw [hm]; exact hled.1, by rw [hm]; exact hled.2.1,
          by rw [hm]; exact hled.2.2⟩
      · have hm : c = b := by
          rw [hc]
          simp only [Backtester.midTp]
          rw [if_neg hto]
        exact ⟨by rw [hm], by rw [hm], by rw [hm]⟩
    exact ⟨hstepA.1.trans hstepB.1, hstepA.2.1.trans hstepB.2.1,
      hstepA.2.2.1.trans hstepB.2.2⟩

theorem replay_tick_ledger_wit :
    (((⟨0, 0, [],
        ⟨OrderType.limit, Side.sell, 1, some 105, none, OStatus.pending, none, none, none⟩,
        ⟨OrderType.stopLimit, Side.sell, 1, some 98, some 98, OStatus.active, none, none,
          none⟩, true, true⟩ : Backtester).tick 9 106).tp.status = OStatus.filled ∧
      ((⟨0, 0, [],
        ⟨OrderType.limit, Side.sell, 1, some 105, none, OStatus.pending, none, none, none⟩,
        ⟨OrderType.stopLimit, Side.sell, 1, some 98, some 98, OStatus.active, none, none,
          none⟩, true, true⟩ : Backtester).tick 9 106).sl.status = OStatus.cancelled) ∧
    ((⟨1000, 0, [],
        ⟨OrderType.limit, Side.sell, 1, some 105, none, OStatus.pending, none, none, none⟩,
        ⟨OrderType.limit, Side.sell, 1, some 105, none, OStatus.pending, none, none, none⟩,
        true, true⟩ : Backtester).execute_fill
          ⟨OrderType.market, Side.buy, 2, none, none, OStatus.filled, none, some 7,
            some 50⟩).cash =
      1000 - 50 * (⟨OrderType.market, Side.buy, 2, none, none, OStatus.filled, none, some 7,
            some 50⟩ : Order).quantity :=
  ⟨⟨(replay_tick_ledger.1 _ 9 106 105 98 rfl rfl rfl rfl rfl rfl (Or.inr ⟨rfl, rfl⟩)
      (Or.inl rfl) (by norm_num) (by norm_num)).1,
    (replay_tick_ledger.1 _ 9 106 105 98 rfl rfl rfl rfl rfl rfl (Or.inr ⟨rfl, rfl⟩)
      (Or.inl rfl) (by norm_num) (by norm_num)).2.1⟩,
    ((replay_tick_ledger.2.1
        ⟨1000, 0, [],
          ⟨OrderType.limit, Side.sell, 1, some 105, none, OStatus.pending, none, none,
            none⟩,
          ⟨OrderType.limit, Side.sell, 1, some 105, none, OStatus.pending, none, none,
            none⟩, true, true⟩
        ⟨OrderType.market, Side.buy, 2, none, none, OStatus.filled, none, some 7, some 50⟩
        50 rfl).1 rfl).1⟩
